import Mathlib

/-!
# Verification of the Orange concurrency runtime (`Orange/widgets/utils/concurrent.py`)

A shallow embedding of the `Future` result cell, the `ThreadExecutor`
submission / shutdown logic, `ThreadExecutor.map`, and the `methodinvoke`
cross-thread invoker, together with proofs about their state machines.

Modelling conventions:
* The four states `Pending, Canceled, Running, Finished` become `FState`.
* Each mutating operation returns, besides its Python return value and the
  updated cell, a linear trace of `Event`s recording lock acquisition and
  release, watcher notification, condition broadcast, and completion-callback
  invocation, in the order the Python statements execute them.
* A raised Python exception is an `Except.error` carrying a `PyErr`.
* Completion callbacks are opaque: all that matters to the runtime is their
  identity and whether they raise, so a callback is a `Callback` record.
* Blocking (`Condition.wait`) is modelled by passing the observed cell at
  wake-up time as an explicit argument; `notify_all` events in the traces tie
  those observations to terminal transitions.
-/

set_option autoImplicit false
set_option linter.unusedVariables false
set_option linter.unnecessarySimpa false

namespace OWConcurrent

/-- The four states of a `Future`: `Pending, Canceled, Running, Finished = 1, 2, 4, 8`. -/
inductive FState where
  | pending
  | canceled
  | running
  | finished
deriving DecidableEq, Repr

/-- A completion callback registered with `add_done_callback`, abstracted to
its identity and whether invoking it raises an exception. -/
structure Callback where
  id : Nat
  raises : Bool
deriving DecidableEq, Repr

/-- One step in the linear trace of a `Future` method: the lock operations on
`self._condition`, watcher notification (performed by `_set_state`),
`notify_all`, completion-callback invocation, and the `except Exception: pass`
suppression in `_invoke_callbacks`. -/
inductive Event where
  | lockAcquire
  | lockRelease
  | notifyWatcher (id : Nat) (s : FState)
  | notifyAll
  | invokeCallback (id : Nat)
  | suppressed (id : Nat)
deriving DecidableEq, Repr

/-- Python exceptions raised by the embedded code. -/
inductive PyErr (V : Type) where
  | timeoutError
  | cancelledError
  | runtimeError (msg : String)
  | valueError (msg : String)
  | genericError
  | raised (e : V)
  | callbackExn (id : Nat)
deriving DecidableEq, Repr

/-- The `Future` result cell: state, payload (`_result` / `_exception`),
registered completion callbacks (`_done_callbacks`) and state-change
observers (`_watchers`, by identity). -/
structure Future (V : Type) where
  state : FState
  result : Option V
  exception : Option V
  doneCallbacks : List Callback
  watchers : List Nat
deriving DecidableEq, Repr

namespace Future

variable {V : Type}

/-- `Future.__init__`: a fresh cell is `Pending` with empty payload and lists. -/
def init : Future V :=
  { state := .pending, result := none, exception := none,
    doneCallbacks := [], watchers := [] }

/-- `Future._set_state`: if the state changes, store it and call every watcher
with the new state (while the caller still holds the lock). -/
def set_state (f : Future V) (s : FState) : Future V × List Event :=
  if f.state ≠ s then
    ({ f with state := s }, f.watchers.map (fun w => .notifyWatcher w s))
  else
    (f, [])

/-- `Future._invoke_callbacks`: call each registered callback in order,
catching and suppressing any exception it raises. -/
def invokeCallbacksEvents (cbs : List Callback) : List Event :=
  cbs.flatMap (fun cb =>
    if cb.raises then [.invokeCallback cb.id, .suppressed cb.id]
    else [.invokeCallback cb.id])

/-- `Future.cancel`: under the lock, return `False` if `Running` or `Finished`,
`True` if already `Canceled`; otherwise transition to `Canceled` and
`notify_all`. On the successful transition, invoke the completion callbacks
after releasing the lock. -/
def cancel (f : Future V) : Bool × Future V × List Event :=
  if f.state = .running ∨ f.state = .finished then
    (false, f, [.lockAcquire, .lockRelease])
  else if f.state = .canceled then
    (true, f, [.lockAcquire, .lockRelease])
  else
    let (f', evs) := set_state f .canceled
    (true, f',
      [.lockAcquire] ++ evs ++ [.notifyAll, .lockRelease]
        ++ invokeCallbacksEvents f'.doneCallbacks)

/-- `Future.set_result`: under the lock, store the value, `_set_state(Finished)`
and `notify_all`; then invoke the completion callbacks outside the lock. -/
def set_result (f : Future V) (v : V) : Future V × List Event :=
  let f1 := { f with result := some v }
  let (f2, evs) := set_state f1 .finished
  (f2,
    [.lockAcquire] ++ evs ++ [.notifyAll, .lockRelease]
      ++ invokeCallbacksEvents f2.doneCallbacks)

/-- `Future.set_exception`: like `set_result` but stores the error value. -/
def set_exception (f : Future V) (e : V) : Future V × List Event :=
  let f1 := { f with exception := some e }
  let (f2, evs) := set_state f1 .finished
  (f2,
    [.lockAcquire] ++ evs ++ [.notifyAll, .lockRelease]
      ++ invokeCallbacksEvents f2.doneCallbacks)

/-- `Future.set_running_or_notify_cancel`: under the lock, return `False` if
`Canceled`, transition `Pending → Running` and return `True`, and raise a bare
`Exception()` if already `Running` or `Finished`. -/
def set_running_or_notify_cancel (f : Future V) :
    Except (PyErr V) Bool × Future V × List Event :=
  if f.state = .canceled then
    (.ok false, f, [.lockAcquire, .lockRelease])
  else if f.state = .pending then
    let (f', evs) := set_state f .running
    (.ok true, f', [.lockAcquire] ++ evs ++ [.lockRelease])
  else
    (.error .genericError, f, [.lockAcquire, .lockRelease])

/-- `Future.add_done_callback`: under the lock, if the cell is not terminal,
append `fn` and return. Otherwise (after releasing the lock) call `fn(self)`
directly — with no try/except, so an exception from `fn` propagates. -/
def add_done_callback (f : Future V) (cb : Callback) :
    Except (PyErr V) Unit × Future V × List Event :=
  if ¬(f.state = .finished ∨ f.state = .canceled) then
    (.ok (), { f with doneCallbacks := f.doneCallbacks ++ [cb] },
      [.lockAcquire, .lockRelease])
  else if cb.raises then
    (.error (.callbackExn cb.id), f,
      [.lockAcquire, .lockRelease, .invokeCallback cb.id])
  else
    (.ok (), f, [.lockAcquire, .lockRelease, .invokeCallback cb.id])

/-- `Future._get_result`: re-raise the stored exception if any, otherwise
return `self._result`. -/
def get_result (f : Future V) : Except (PyErr V) (Option V) :=
  match f.exception with
  | some e => .error (.raised e)
  | none => .ok f.result

/-- `Future.result(timeout)`: under the lock, return / raise immediately when
already terminal; otherwise `wait(timeout)` on the condition and re-check. The
cell observed at wake-up time is the explicit argument `fWake`; `timeout` only
governs how long the wait may block, which the trace-level `notifyAll` events
constrain (a `None` timeout can only wake on a `notify_all`). -/
def resultOp (f : Future V) (timeout : Option Nat) (fWake : Future V) :
    Except (PyErr V) (Option V) :=
  if f.state = .finished then
    get_result f
  else if f.state = .canceled then
    .error .cancelledError
  else
    if fWake.state = .finished then
      get_result fWake
    else if fWake.state = .canceled then
      .error .cancelledError
    else
      .error .timeoutError

/-- `Future.exception(timeout)`: same blocking structure as `result`, but the
stored exception is returned rather than re-raised. -/
def exceptionOp (f : Future V) (timeout : Option Nat) (fWake : Future V) :
    Except (PyErr V) (Option V) :=
  if f.state = .finished then
    .ok f.exception
  else if f.state = .canceled then
    .error .cancelledError
  else
    if fWake.state = .finished then
      .ok fWake.exception
    else if fWake.state = .canceled then
      .error .cancelledError
    else
      .error .timeoutError

end Future

/-- One mutating operation on a `Future`, for reasoning about call sequences. -/
inductive Op (V : Type) where
  | cancel
  | setRunningOrNotifyCancel
  | setResult (v : V)
  | setException (e : V)
deriving DecidableEq, Repr

/-- Whether the operation is `set_result` or `set_exception`. -/
def Op.isSet {V : Type} : Op V → Bool
  | .setResult _ => true
  | .setException _ => true
  | _ => false

/-- The cell left behind by one operation (a raised exception leaves the cell
as the `with` block last wrote it — unchanged for
`set_running_or_notify_cancel`'s error branch). -/
def applyOp {V : Type} (f : Future V) (op : Op V) : Future V :=
  match op with
  | .cancel => (Future.cancel f).2.1
  | .setRunningOrNotifyCancel => (Future.set_running_or_notify_cancel f).2.1
  | .setResult v => (Future.set_result f v).1
  | .setException e => (Future.set_exception f e).1

/-- The cell after a whole sequence of operations. -/
def applyOps {V : Type} (f : Future V) (ops : List (Op V)) : Future V :=
  ops.foldl applyOp f

/-- An `Owned Task`: modelled by the thread that owns it (`QObject.thread()`),
its parent (`QObject.parent()`, by identity) and its embedded `Future`. -/
structure Task (V : Type) where
  ownThread : Nat
  parent : Option Nat
  future : Future V
deriving DecidableEq, Repr

/-- A submission to `ThreadExecutor.submit`: either a plain callable (by
identity) or a `Task` (`isinstance(func, Task)` branch). -/
inductive WorkItem (V : Type) where
  | callable (fid : Nat)
  | task (t : Task V)
deriving DecidableEq, Repr

/-- Executor-level events: a runnable was handed to `QThreadPool.start`. -/
inductive ExEvent where
  | poolStart
deriving DecidableEq, Repr

/-- The watcher identity of `ThreadExecutor._future_state_change`, appended to
`f._watchers` on each submission. -/
def executorWatcherId : Nat := 0

/-- `ThreadExecutor`: the outstanding-futures list (`self._futures`) and the
shutdown flag, both guarded by `self._state_lock`. -/
structure ThreadExecutor (V : Type) where
  futures : List (Future V)
  shutdownFlag : Bool
deriving DecidableEq, Repr

namespace ThreadExecutor

variable {V : Type}

/-- A fresh executor: no outstanding futures, not shut down. -/
def init : ThreadExecutor V := { futures := [], shutdownFlag := false }

/-- `ThreadExecutor.__make_task_runnable`: raise `ValueError` when the task is
not owned by the calling thread or has a parent; otherwise reuse the task's
own `Future`. -/
def make_task_runnable (t : Task V) (currentThread : Nat) :
    Except (PyErr V) (Future V) :=
  if t.ownThread ≠ currentThread then
    .error (.valueError "Can only submit Tasks from it's own thread.")
  else if t.parent ≠ none then
    .error (.valueError "Can not submit Tasks with a parent.")
  else
    .ok t.future

/-- `ThreadExecutor.submit`: under the bookkeeping lock, raise `RuntimeError`
after shutdown; dispatch on `isinstance(func, Task)`; record the future,
register `_future_state_change` as a watcher and start the runnable. -/
def submit (ex : ThreadExecutor V) (item : WorkItem V) (currentThread : Nat) :
    Except (PyErr V) (ThreadExecutor V × Future V) × List ExEvent :=
  if ex.shutdownFlag then
    (.error (.runtimeError "Cannot schedule new futures after shutdown."), [])
  else
    match item with
    | .callable _ =>
      let f : Future V := { Future.init with watchers := [executorWatcherId] }
      (.ok ({ ex with futures := ex.futures ++ [f] }, f), [.poolStart])
    | .task t =>
      match make_task_runnable t currentThread with
      | .error e => (.error e, [])
      | .ok f0 =>
        let f := { f0 with watchers := f0.watchers ++ [executorWatcherId] }
        (.ok ({ ex with futures := ex.futures ++ [f] }, f), [.poolStart])

/-- `ThreadExecutor.submit_task`: same shutdown check, then
`__make_task_runnable` on the given task. -/
def submit_task (ex : ThreadExecutor V) (t : Task V) (currentThread : Nat) :
    Except (PyErr V) (ThreadExecutor V × Future V) × List ExEvent :=
  if ex.shutdownFlag then
    (.error (.runtimeError "Cannot schedule new futures after shutdown."), [])
  else
    match make_task_runnable t currentThread with
    | .error e => (.error e, [])
    | .ok f0 =>
      let f := { f0 with watchers := f0.watchers ++ [executorWatcherId] }
      (.ok ({ ex with futures := ex.futures ++ [f] }, f), [.poolStart])

/-- One iteration of `ThreadExecutor.shutdown`'s wait loop:
`try: future.exception() except (TimeoutError, CancelledError): pass`.
The pair carries the future and the cell observed at wake-up. -/
def shutdownWaitStep (fw : Future V × Future V) : Except (PyErr V) Unit :=
  match Future.exceptionOp fw.1 none fw.2 with
  | .ok _ => .ok ()
  | .error .timeoutError => .ok ()
  | .error .cancelledError => .ok ()
  | .error e => .error e

/-- The `for future in list(self._futures)` loop of `shutdown(wait=True)`:
run each iteration in order, propagating any exception an iteration does not
catch. -/
def shutdownWaitLoop : List (Future V × Future V) → Except (PyErr V) Unit
  | [] => .ok ()
  | fw :: rest =>
    match shutdownWaitStep fw with
    | .ok _ => shutdownWaitLoop rest
    | .error e => .error e

/-- `ThreadExecutor.shutdown(wait)`: set the shutdown flag under the
bookkeeping lock; when `wait` is true, run the wait loop over the outstanding
futures (each paired with its wake-up observation). -/
def shutdown (ex : ThreadExecutor V) (wait : Bool) (wakes : List (Future V)) :
    Except (PyErr V) (ThreadExecutor V) :=
  let ex' := { ex with shutdownFlag := true }
  if wait then
    match shutdownWaitLoop (ex'.futures.zip wakes) with
    | .ok _ => .ok ex'
    | .error e => .error e
  else
    .ok ex'

end ThreadExecutor

/-- `_Runnable.run`: `set_running_or_notify_cancel`, return when cancelled,
otherwise run the function and store its outcome via `set_result` /
`set_exception`. `outcome` is what `self.func(*args, **kwargs)` does:
`.ok v` returns `v`, `.error e` raises `e`. -/
def Runnable.run {V : Type} (f : Future V) (outcome : Except V V) : Future V :=
  match Future.set_running_or_notify_cancel f with
  | (.ok true, f', _) =>
    match outcome with
    | .ok v => (Future.set_result f' v).1
    | .error e => (Future.set_exception f' e).1
  | (.ok false, f', _) => f'
  | (.error _, f', _) => f'

/-- Events of one `ThreadExecutor.map` call: submission of work item `i`
(inside the list comprehension) and the yield of `futures[i].result()`. -/
inductive MapEvent where
  | submitEv (i : Nat)
  | yieldEv (i : Nat)
deriving DecidableEq, Repr

/-- `ThreadExecutor.map(func, *iterables)` over the zipped argument tuples
`xs`: the list comprehension submits every tuple first, creating one future
per tuple, each completed by its worker with `func`'s outcome on that tuple;
then the loop yields `f.result()` for each future in input order. The workers'
completion order cannot influence any future but its own, so it does not
appear. -/
def ThreadExecutor.mapOp {A V : Type} (func : A → Except V V) (xs : List A) :
    List MapEvent × List (Except (PyErr V) (Option V)) :=
  let futures := xs.map (fun x => Runnable.run Future.init (func x))
  ((List.range xs.length).map .submitEv ++ (List.range xs.length).map .yieldEv,
   futures.map (fun f => Future.resultOp f none f))

/-- `methodinvoke`: target object (by identity), method name and the declared
tuple of positional argument types. -/
structure methodinvoke (T : Type) where
  obj : Nat
  method : String
  arg_types : List T
deriving DecidableEq, Repr

/-- The asynchronous invocation posted by `methodinvoke.__call__`: the target,
the method, and the `Q_ARG(atype, arg)` pairs. -/
structure Invocation (T A : Type) where
  obj : Nat
  method : String
  args : List (T × A)
deriving DecidableEq, Repr

/-- `methodinvoke.__call__(*args)`: build
`[Q_ARG(atype, arg) for atype, arg in zip(self.arg_types, args)]` and post a
queued invocation of the method with those arguments. -/
def methodinvoke.call {T A : Type} (m : methodinvoke T) (args : List A) :
    Invocation T A :=
  { obj := m.obj, method := m.method, args := m.arg_types.zip args }

/-- A concrete pending cell with two registered callbacks (the first of which
raises) and one watcher, used to instantiate theorems. -/
def exampleCbFuture : Future Nat :=
  { Future.init with doneCallbacks := [⟨1, true⟩, ⟨2, false⟩], watchers := [5] }

/-- A concrete cell that has already finished, used to instantiate theorems. -/
def exampleFinished : Future Nat :=
  { Future.init with state := .finished }

/-- A concrete pending cell with one watcher, used to instantiate theorems. -/
def exampleWatched : Future Nat :=
  { Future.init with watchers := [7] }

/-- A concrete task owned by thread 1 with no parent, used to instantiate
theorems. -/
def exampleTask : Task Nat :=
  { ownThread := 1, parent := none, future := Future.init }

/-! ## Trace checkers -/

/-- The trace of one mutating operation. -/
def opTrace {V : Type} (f : Future V) (op : Op V) : List Event :=
  match op with
  | .cancel => (Future.cancel f).2.2
  | .setRunningOrNotifyCancel => (Future.set_running_or_notify_cancel f).2.2
  | .setResult v => (Future.set_result f v).2
  | .setException e => (Future.set_exception f e).2

/-- `true` iff every completion-callback invocation in the trace happens while
the condition lock is not held; the second argument is whether the lock is
held at the start. -/
def callbacksOutsideLock : List Event → Bool → Bool
  | [], _ => true
  | .lockAcquire :: rest, _ => callbacksOutsideLock rest true
  | .lockRelease :: rest, _ => callbacksOutsideLock rest false
  | .invokeCallback _ :: rest, held => !held && callbacksOutsideLock rest held
  | _ :: rest, held => callbacksOutsideLock rest held

/-- `true` iff every watcher notification in the trace happens while the
condition lock is not held. -/
def watchersOutsideLock : List Event → Bool → Bool
  | [], _ => true
  | .lockAcquire :: rest, _ => watchersOutsideLock rest true
  | .lockRelease :: rest, _ => watchersOutsideLock rest false
  | .notifyWatcher _ _ :: rest, held => !held && watchersOutsideLock rest held
  | _ :: rest, held => watchersOutsideLock rest held

/-- `true` iff every watcher notification in the trace happens while the
condition lock IS held. -/
def watchersInsideLock : List Event → Bool → Bool
  | [], _ => true
  | .lockAcquire :: rest, _ => watchersInsideLock rest true
  | .lockRelease :: rest, _ => watchersInsideLock rest false
  | .notifyWatcher _ _ :: rest, held => held && watchersInsideLock rest held
  | _ :: rest, held => watchersInsideLock rest held

/-- The completion callbacks a trace invokes, in order of invocation. -/
def callbackIds (tr : List Event) : List Nat :=
  tr.filterMap (fun ev =>
    match ev with
    | .invokeCallback i => some i
    | _ => none)

/-- `true` iff no watcher notification occurs after a completion-callback
invocation; the second argument records whether a callback has run yet. -/
def watchersPrecedeCallbacks : List Event → Bool → Bool
  | [], _ => true
  | .notifyWatcher _ _ :: rest, seenCb =>
    !seenCb && watchersPrecedeCallbacks rest seenCb
  | .invokeCallback _ :: rest, _ => watchersPrecedeCallbacks rest true
  | _ :: rest, seenCb => watchersPrecedeCallbacks rest seenCb

/-- `true` iff no work-item submission occurs after a result has been
yielded. -/
def submitsBeforeYields : List MapEvent → Bool → Bool
  | [], _ => true
  | .submitEv _ :: rest, seenYield =>
    !seenYield && submitsBeforeYields rest seenYield
  | .yieldEv _ :: rest, _ => submitsBeforeYields rest true

/-! ## Helper lemmas -/

section Lemmas

variable {V : Type}

lemma callbacksOutsideLock_watcherMap (ws : List Nat) (s : FState)
    (rest : List Event) (b : Bool) :
    callbacksOutsideLock (ws.map (fun w => Event.notifyWatcher w s) ++ rest) b
      = callbacksOutsideLock rest b := by
  induction ws with
  | nil => rfl
  | cons w ws ih => simpa [callbacksOutsideLock] using ih

lemma callbacksOutsideLock_invokes (cbs : List Callback) (rest : List Event) :
    callbacksOutsideLock (Future.invokeCallbacksEvents cbs ++ rest) false
      = callbacksOutsideLock rest false := by
  induction cbs with
  | nil => rfl
  | cons cb cbs ih =>
    rcases hcb : cb.raises <;>
      simp [Future.invokeCallbacksEvents, hcb, callbacksOutsideLock,
        List.flatMap_cons] at ih ⊢ <;>
      simpa [Future.invokeCallbacksEvents] using ih

lemma watchersInsideLock_watcherMap (ws : List Nat) (s : FState)
    (rest : List Event) :
    watchersInsideLock (ws.map (fun w => Event.notifyWatcher w s) ++ rest) true
      = watchersInsideLock rest true := by
  induction ws with
  | nil => rfl
  | cons w ws ih => simpa [watchersInsideLock] using ih

lemma watchersInsideLock_invokes (cbs : List Callback) (rest : List Event)
    (b : Bool) :
    watchersInsideLock (Future.invokeCallbacksEvents cbs ++ rest) b
      = watchersInsideLock rest b := by
  induction cbs with
  | nil => rfl
  | cons cb cbs ih =>
    rcases hcb : cb.raises <;>
      simp [Future.invokeCallbacksEvents, hcb, watchersInsideLock,
        List.flatMap_cons] at ih ⊢ <;>
      simpa [Future.invokeCallbacksEvents] using ih

lemma callbackIds_watcherMap (ws : List Nat) (s : FState) (rest : List Event) :
    callbackIds (ws.map (fun w => Event.notifyWatcher w s) ++ rest)
      = callbackIds rest := by
  induction ws with
  | nil => rfl
  | cons w ws ih => simpa [callbackIds] using ih

lemma callbackIds_invokes (cbs : List Callback) :
    callbackIds (Future.invokeCallbacksEvents cbs) = cbs.map (·.id) := by
  induction cbs with
  | nil => rfl
  | cons cb cbs ih =>
    rcases hcb : cb.raises <;>
      simp [Future.invokeCallbacksEvents, hcb, callbackIds,
        List.flatMap_cons] at ih ⊢ <;>
      simpa [Future.invokeCallbacksEvents, callbackIds] using ih

lemma watchersPrecedeCallbacks_watcherMap (ws : List Nat) (s : FState)
    (rest : List Event) :
    watchersPrecedeCallbacks (ws.map (fun w => Event.notifyWatcher w s) ++ rest)
        false
      = watchersPrecedeCallbacks rest false := by
  induction ws with
  | nil => rfl
  | cons w ws ih => simpa [watchersPrecedeCallbacks] using ih

lemma callbacksOutsideLock_invokes_nil (cbs : List Callback) :
    callbacksOutsideLock (Future.invokeCallbacksEvents cbs) false = true := by
  simpa [callbacksOutsideLock] using callbacksOutsideLock_invokes cbs []

lemma watchersInsideLock_invokes_nil (cbs : List Callback) (b : Bool) :
    watchersInsideLock (Future.invokeCallbacksEvents cbs) b = true := by
  simpa [watchersInsideLock] using watchersInsideLock_invokes cbs [] b

@[simp] lemma callbackIds_nil : callbackIds ([] : List Event) = [] := rfl

@[simp] lemma callbackIds_cons_lockAcquire (rest : List Event) :
    callbackIds (.lockAcquire :: rest) = callbackIds rest := rfl

@[simp] lemma callbackIds_cons_lockRelease (rest : List Event) :
    callbackIds (.lockRelease :: rest) = callbackIds rest := rfl

@[simp] lemma callbackIds_cons_notifyAll (rest : List Event) :
    callbackIds (.notifyAll :: rest) = callbackIds rest := rfl

@[simp] lemma callbackIds_cons_notifyWatcher (w : Nat) (s : FState)
    (rest : List Event) :
    callbackIds (.notifyWatcher w s :: rest) = callbackIds rest := rfl

@[simp] lemma callbackIds_cons_suppressed (i : Nat) (rest : List Event) :
    callbackIds (.suppressed i :: rest) = callbackIds rest := rfl

@[simp] lemma callbackIds_cons_invoke (i : Nat) (rest : List Event) :
    callbackIds (.invokeCallback i :: rest) = i :: callbackIds rest := rfl

lemma suppressed_mem_invokes (cbs : List Callback) (c : Callback)
    (hc : c ∈ cbs) (hr : c.raises = true) :
    Event.suppressed c.id ∈ Future.invokeCallbacksEvents cbs := by
  induction cbs with
  | nil => cases hc
  | cons cb cbs ih =>
    have hsplit : Future.invokeCallbacksEvents (cb :: cbs)
        = (if cb.raises then
            [Event.invokeCallback cb.id, Event.suppressed cb.id]
          else [Event.invokeCallback cb.id])
          ++ Future.invokeCallbacksEvents cbs := by
      simp [Future.invokeCallbacksEvents, List.flatMap_cons]
    rw [hsplit]
    rcases List.mem_cons.mp hc with h | h
    · subst h
      exact List.mem_append_left _ (by simp [hr])
    · exact List.mem_append_right _ (ih h)

lemma watchersPrecedeCallbacks_invokes (cbs : List Callback) (b : Bool) :
    watchersPrecedeCallbacks (Future.invokeCallbacksEvents cbs) b = true := by
  induction cbs generalizing b with
  | nil => rfl
  | cons cb cbs ih =>
    rcases hcb : cb.raises <;>
      simp [Future.invokeCallbacksEvents, hcb, watchersPrecedeCallbacks,
        List.flatMap_cons] <;>
      simpa [Future.invokeCallbacksEvents] using ih _

end Lemmas

/-! ## State-machine lemmas -/

section StateLemmas

variable {V : Type}

lemma applyOp_state_cases (f : Future V) (op : Op V) :
    (applyOp f op).state = f.state
      ∨ (f.state = .pending
          ∧ ((applyOp f op).state = .canceled
              ∨ (applyOp f op).state = .running))
      ∨ ((applyOp f op).state = .finished ∧ op.isSet = true) := by
  rcases f with ⟨s, r, e, cbs, ws⟩
  rcases op <;> rcases s <;>
    simp [applyOp, Op.isSet, Future.cancel, Future.set_result,
      Future.set_exception, Future.set_running_or_notify_cancel,
      Future.set_state]

lemma applyOp_finished (f : Future V) (op : Op V) (h : f.state = .finished) :
    (applyOp f op).state = .finished := by
  rcases f with ⟨s, r, e, cbs, ws⟩
  cases h
  rcases op <;>
    simp [applyOp, Future.cancel, Future.set_result, Future.set_exception,
      Future.set_running_or_notify_cancel, Future.set_state]

lemma applyOp_canceled_nonset (f : Future V) (op : Op V)
    (h : f.state = .canceled) (hset : op.isSet = false) :
    (applyOp f op).state = .canceled := by
  rcases f with ⟨s, r, e, cbs, ws⟩
  cases h
  rcases op <;> simp [Op.isSet] at hset <;>
    simp [applyOp, Future.cancel, Future.set_running_or_notify_cancel,
      Future.set_state]

lemma applyOp_active (f : Future V) (op : Op V)
    (h : f.state = .running ∨ f.state = .finished) :
    (applyOp f op).state = .running ∨ (applyOp f op).state = .finished := by
  rcases f with ⟨s, r, e, cbs, ws⟩
  rcases op <;> rcases h with h | h <;> cases h <;>
    simp [applyOp, Future.cancel, Future.set_result, Future.set_exception,
      Future.set_running_or_notify_cancel, Future.set_state]

lemma applyOps_active (f : Future V) (ops : List (Op V))
    (h : f.state = .running ∨ f.state = .finished) :
    (applyOps f ops).state = .running ∨ (applyOps f ops).state = .finished := by
  induction ops generalizing f with
  | nil => simpa [applyOps] using h
  | cons op ops ih =>
    simpa [applyOps] using ih (applyOp f op) (applyOp_active f op h)

lemma srnc_ok_true (f g : Future V) (evs : List Event)
    (h : Future.set_running_or_notify_cancel f = (.ok true, g, evs)) :
    g.state = .running := by
  rcases f with ⟨s, r, e, cbs, ws⟩
  rcases s <;>
    simp [Future.set_running_or_notify_cancel, Future.set_state] at h
  obtain ⟨hg, -⟩ := h
  rw [← hg]

lemma notifyAll_terminal {V : Type} (g : Future V) (op : Op V)
    (h : Event.notifyAll ∈ opTrace g op) :
    (applyOp g op).state = .canceled ∨ (applyOp g op).state = .finished := by
  rcases g with ⟨s, r, e, cbs, ws⟩
  rcases op <;> rcases s <;>
    simp [opTrace, applyOp, Future.cancel, Future.set_result,
      Future.set_exception, Future.set_running_or_notify_cancel,
      Future.set_state] at h ⊢

lemma shutdownWaitStep_ok {V : Type} (fw : Future V × Future V) :
    ThreadExecutor.shutdownWaitStep fw = .ok () := by
  rcases fw with ⟨f, w⟩
  rcases f with ⟨s, r, e, cbs, ws⟩
  rcases w with ⟨s2, r2, e2, cbs2, ws2⟩
  rcases s <;> rcases s2 <;>
    simp [ThreadExecutor.shutdownWaitStep, Future.exceptionOp]

lemma shutdownWaitLoop_ok {V : Type} (l : List (Future V × Future V)) :
    ThreadExecutor.shutdownWaitLoop l = .ok () := by
  induction l with
  | nil => rfl
  | cons x l ih => simp [ThreadExecutor.shutdownWaitLoop, shutdownWaitStep_ok, ih]

lemma make_task_runnable_err {V : Type} (t : Task V) (cur : Nat)
    (h : t.ownThread ≠ cur ∨ t.parent ≠ none) :
    ∃ err, ThreadExecutor.make_task_runnable t cur = .error err := by
  by_cases h1 : t.ownThread = cur
  · rcases h with h | h
    · exact absurd h1 h
    · exact ⟨.valueError "Can not submit Tasks with a parent.",
        by simp [ThreadExecutor.make_task_runnable, h1, h]⟩
  · exact ⟨.valueError "Can only submit Tasks from it's own thread.",
      by simp [ThreadExecutor.make_task_runnable, h1]⟩

lemma runnable_result {V : Type} (o : Except V V) :
    Future.resultOp (Runnable.run Future.init o) none
        (Runnable.run Future.init o)
      = match o with
        | .ok v => .ok (some v)
        | .error e => .error (.raised e) := by
  rcases o <;> rfl

lemma submitsBeforeYields_yields (l : List Nat) (b : Bool) :
    submitsBeforeYields (l.map .yieldEv) b = true := by
  induction l generalizing b with
  | nil => rfl
  | cons a l ih => simpa [submitsBeforeYields] using ih true

lemma submitsBeforeYields_ranges (l1 l2 : List Nat) :
    submitsBeforeYields (l1.map .submitEv ++ l2.map .yieldEv) false = true := by
  induction l1 with
  | nil => simpa using submitsBeforeYields_yields l2 false
  | cons a l1 ih => simpa [submitsBeforeYields] using ih

lemma zip_map_fst {T A : Type} (l1 : List T) (l2 : List A) :
    (l1.zip l2).map Prod.fst = l1.take l2.length := by
  induction l1 generalizing l2 with
  | nil => simp
  | cons a l1 ih =>
    rcases l2 with _ | ⟨b, l2⟩
    · simp
    · simp [ih]

lemma zip_map_snd {T A : Type} (l1 : List T) (l2 : List A) :
    (l1.zip l2).map Prod.snd = l2.take l1.length := by
  induction l1 generalizing l2 with
  | nil => simp
  | cons a l1 ih =>
    rcases l2 with _ | ⟨b, l2⟩
    · simp
    · simp [ih]

end StateLemmas

/-! ## Claim theorems -/

/-- Claim C1, as stated, is false on the code: `Cancelled` is not terminal.
`Future.set_result` stores the value and calls `_set_state(Finished)`
unconditionally, so a cell cancelled while `Pending` is moved out of
`Cancelled` into `Finished` by a later `set_result`. -/
theorem C1_counterexample :
    (Future.cancel (Future.init (V := Nat))).2.1.state = FState.canceled
    ∧ (Future.set_result
        (Future.cancel (Future.init (V := Nat))).2.1 0).1.state
        = FState.finished := by
  constructor <;> rfl

/-- Claim C1 (amended): for every cell and every operation among `cancel`,
`set_running_or_notify_cancel`, `set_result` and `set_exception`, either the
state is unchanged, or the transition is `Pending→Cancelled`,
`Pending→Running`, or a transition into `Finished` performed by `set_result` /
`set_exception` (which move the cell to `Finished` from any state, including
`Cancelled`). `Finished` is terminal, and `Cancelled` is terminal with respect
to `cancel` and `set_running_or_notify_cancel`. -/
theorem C1_state_transitions {V : Type} (f : Future V) (op : Op V) :
    ((applyOp f op).state = f.state
      ∨ (f.state = .pending
          ∧ ((applyOp f op).state = .canceled
              ∨ (applyOp f op).state = .running))
      ∨ ((applyOp f op).state = .finished ∧ op.isSet = true))
    ∧ (f.state = .finished → (applyOp f op).state = .finished)
    ∧ (f.state = .canceled → op.isSet = false →
        (applyOp f op).state = .canceled) :=
  ⟨applyOp_state_cases f op,
   fun h => applyOp_finished f op h,
   fun h hset => applyOp_canceled_nonset f op h hset⟩

/-- Witness for C1: a `Finished` cell stays `Finished` under `cancel`, and a
`Cancelled` cell stays `Cancelled` under `cancel`. -/
theorem C1_witness :
    (applyOp ({ Future.init with state := .finished } : Future Nat)
        Op.cancel).state = FState.finished
    ∧ (applyOp ({ Future.init with state := .canceled } : Future Nat)
        Op.cancel).state = FState.canceled :=
  ⟨(C1_state_transitions { Future.init with state := .finished } Op.cancel).2.1
      rfl,
   (C1_state_transitions { Future.init with state := .canceled } Op.cancel).2.2
      rfl rfl⟩

/-- Claim C4: `cancel()` returns `False` exactly when the state is `Running`
or `Finished`; it returns `True` when the cell is already `Cancelled` and when
it performs the `Pending→Cancelled` transition; and once
`set_running_or_notify_cancel()` has returned `True`, every later `cancel()`
(after any further sequence of operations) returns `False`. -/
theorem C4_cancel_contract {V : Type} (f g : Future V) (evs : List Event)
    (ops : List (Op V)) :
    ((Future.cancel f).1 = false ↔ f.state = .running ∨ f.state = .finished)
    ∧ (f.state = .canceled → (Future.cancel f).1 = true)
    ∧ (f.state = .pending →
        (Future.cancel f).1 = true
          ∧ (Future.cancel f).2.1.state = .canceled)
    ∧ (Future.set_running_or_notify_cancel f = (.ok true, g, evs) →
        (Future.cancel (applyOps g ops)).1 = false) := by
  refine ⟨?_, ?_, ?_, ?_⟩
  · rcases f with ⟨s, r, e, cbs, ws⟩
    rcases s <;> simp [Future.cancel, Future.set_state]
  · intro h
    rcases f with ⟨s, r, e, cbs, ws⟩
    cases h
    simp [Future.cancel]
  · intro h
    rcases f with ⟨s, r, e, cbs, ws⟩
    cases h
    simp [Future.cancel, Future.set_state]
  · intro h
    have hg : g.state = .running ∨ g.state = .finished :=
      Or.inl (srnc_ok_true f g evs h)
    have hactive := applyOps_active g ops hg
    rcases hfg : applyOps g ops with ⟨s, r, e, cbs, ws⟩
    rw [hfg] at hactive
    rcases hactive with h1 | h1 <;> cases h1 <;> simp [Future.cancel]

/-- Witness for C4: after `set_running_or_notify_cancel` succeeds on a fresh
cell, `cancel` after a further `cancel; set_result 5` still returns `False`. -/
theorem C4_witness :
    (Future.cancel (applyOps
        ({ Future.init with state := .running } : Future Nat)
        [Op.cancel, Op.setResult 5])).1 = false :=
  (C4_cancel_contract (Future.init (V := Nat))
      { Future.init with state := .running }
      [.lockAcquire, .lockRelease] [Op.cancel, Op.setResult 5]).2.2.2 rfl

/-- Claim C2, as stated, is false on the code: the state-change watchers are
called by `_set_state` from inside the `with self._condition` block, i.e.
while the lock is held. Concretely, `set_result` on a pending cell with one
watcher notifies that watcher between the lock acquisition and the release. -/
theorem C2_counterexample :
    watchersOutsideLock (Future.set_result exampleWatched 0).2 false
      = false := by
  rfl

/-- Claim C2 (amended): on every state transition performed by `cancel`,
`set_running_or_notify_cancel`, `set_result` or `set_exception`, the
completion callbacks are invoked only after the condition lock has been
released, but the state-change watchers are invoked while the lock is held
(inside `_set_state`, which runs inside the `with self._condition` block). -/
theorem C2_lock_discipline {V : Type} (f : Future V) (op : Op V) :
    callbacksOutsideLock (opTrace f op) false = true
    ∧ watchersInsideLock (opTrace f op) false = true := by
  rcases f with ⟨s, r, e, cbs, ws⟩
  rcases op <;> rcases s <;>
    simp [opTrace, Future.cancel, Future.set_result, Future.set_exception,
      Future.set_running_or_notify_cancel, Future.set_state,
      callbacksOutsideLock, watchersInsideLock,
      callbacksOutsideLock_watcherMap, callbacksOutsideLock_invokes_nil,
      watchersInsideLock_watcherMap, watchersInsideLock_invokes_nil]

/-- Claim C3, as stated, is false on the code: when the cell is already
terminal, `add_done_callback` calls `fn(self)` directly with no try/except, so
an exception raised by `fn` propagates to the caller that registered it. -/
theorem C3_counterexample :
    (Future.add_done_callback
        (Future.set_result (Future.init (V := Nat)) 0).1
        ⟨1, true⟩).1
      = Except.error (PyErr.callbackExn 1) := by
  rfl

/-- Claim C3 (amended): exceptions raised by a registered callback during
completion-time invocation (`_invoke_callbacks`) are caught and suppressed:
the completing `set_result` stores its payload and state regardless, every
registered callback is still invoked in order (a raising callback does not
prevent the rest), and each raising callback's exception is suppressed. But
when the callback is invoked synchronously by `add_done_callback` on an
already-terminal cell, its exception propagates to the caller of
`add_done_callback` (the cell itself is left unchanged). -/
theorem C3_callback_exceptions {V : Type} (f : Future V) (v : V)
    (cb : Callback) :
    ((Future.set_result f v).1.state = .finished
      ∧ (Future.set_result f v).1.result = some v
      ∧ callbackIds (Future.set_result f v).2 = f.doneCallbacks.map (·.id)
      ∧ (∀ c ∈ f.doneCallbacks, c.raises = true →
          Event.suppressed c.id ∈ (Future.set_result f v).2))
    ∧ ((f.state = .finished ∨ f.state = .canceled) → cb.raises = true →
        Future.add_done_callback f cb
          = (.error (.callbackExn cb.id), f,
             [.lockAcquire, .lockRelease, .invokeCallback cb.id])) := by
  constructor
  · rcases f with ⟨s, r, e, cbs, ws⟩
    refine ⟨?_, ?_, ?_, ?_⟩
    · rcases s <;>
        simp [Future.set_result, Future.set_state]
    · rcases s <;>
        simp [Future.set_result, Future.set_state]
    · rcases s <;>
        simp [Future.set_result, Future.set_state,
          callbackIds_watcherMap, callbackIds_invokes]
    · intro c hm hr
      rcases s <;>
        simp [Future.set_result, Future.set_state, List.mem_append] <;>
        exact suppressed_mem_invokes cbs c hm hr
  · intro hterm hr
    rcases f with ⟨s, r, e, cbs, ws⟩
    rcases hterm with h | h <;> cases h <;>
      simp [Future.add_done_callback, hr]

/-- Witness for C3: completing a pending cell whose first callback raises
still invokes and suppresses it; registering a raising callback on a finished
cell raises to the registering caller. -/
theorem C3_witness :
    Event.suppressed 1 ∈ (Future.set_result exampleCbFuture 7).2
    ∧ Future.add_done_callback exampleFinished ⟨3, true⟩
        = (.error (.callbackExn 3), exampleFinished,
           [.lockAcquire, .lockRelease, .invokeCallback 3]) :=
  ⟨(C3_callback_exceptions exampleCbFuture 7 ⟨3, true⟩).1.2.2.2 ⟨1, true⟩
      (by decide) rfl,
   (C3_callback_exceptions exampleFinished 7 ⟨3, true⟩).2 (Or.inl rfl) rfl⟩

/-- Claim C5: when a non-terminal cell with registered callbacks reaches a
terminal state via `set_result`, `set_exception`, or a successful `cancel`,
every registered callback is invoked exactly once, in registration order (the
invoked-callback identities of the trace are exactly the registration list),
and all watcher notifications precede all callback invocations on that
transition. `add_done_callback` on a non-terminal cell appends the callback
and invokes nothing. -/
theorem C5_callback_order {V : Type} (f : Future V) (v e : V)
    (hnt : f.state = .pending ∨ f.state = .running) :
    (callbackIds (Future.set_result f v).2 = f.doneCallbacks.map (·.id)
      ∧ watchersPrecedeCallbacks (Future.set_result f v).2 false = true)
    ∧ (callbackIds (Future.set_exception f e).2 = f.doneCallbacks.map (·.id)
      ∧ watchersPrecedeCallbacks (Future.set_exception f e).2 false = true)
    ∧ (f.state = .pending →
        callbackIds (Future.cancel f).2.2 = f.doneCallbacks.map (·.id)
          ∧ watchersPrecedeCallbacks (Future.cancel f).2.2 false = true)
    ∧ (∀ cb : Callback,
        (Future.add_done_callback f cb).2.1.doneCallbacks
            = f.doneCallbacks ++ [cb]
          ∧ callbackIds (Future.add_done_callback f cb).2.2 = []) := by
  rcases f with ⟨s, r, e0, cbs, ws⟩
  refine ⟨?_, ?_, ?_, ?_⟩
  · rcases hnt with h | h <;> cases h <;>
      simp [Future.set_result, Future.set_state, callbackIds_watcherMap,
        callbackIds_invokes, watchersPrecedeCallbacks,
        watchersPrecedeCallbacks_watcherMap, watchersPrecedeCallbacks_invokes]
  · rcases hnt with h | h <;> cases h <;>
      simp [Future.set_exception, Future.set_state, callbackIds_watcherMap,
        callbackIds_invokes, watchersPrecedeCallbacks,
        watchersPrecedeCallbacks_watcherMap, watchersPrecedeCallbacks_invokes]
  · intro h
    cases h
    simp [Future.cancel, Future.set_state, callbackIds_watcherMap,
      callbackIds_invokes, watchersPrecedeCallbacks,
      watchersPrecedeCallbacks_watcherMap, watchersPrecedeCallbacks_invokes]
  · intro cb
    rcases hnt with h | h <;> cases h <;>
      simp [Future.add_done_callback]

/-- Witness for C5: completing the example pending cell (two callbacks, one
watcher) with `set_result 7` invokes callbacks `[1, 2]` in order, with the
watcher notified first. -/
theorem C5_witness :
    callbackIds (Future.set_result exampleCbFuture 7).2
        = exampleCbFuture.doneCallbacks.map (·.id)
    ∧ watchersPrecedeCallbacks (Future.set_result exampleCbFuture 7).2 false
        = true :=
  (C5_callback_order exampleCbFuture 7 7 (Or.inl rfl)).1

/-- Claim C6: `result(timeout)`'s outcome is fully determined by a terminal
observation of the cell: if the cell is already terminal the waiting is
skipped; otherwise the outcome is decided by the cell observed at wake-up.
It returns the stored value when `Finished` without error, re-raises the
stored error when `Finished` with one, raises `CancelledError` when
`Cancelled`, and raises `TimeoutError` exactly when neither the initial nor
the wake-up observation is terminal — which cannot happen for
`timeout=None`, since a no-timeout `Condition.wait` wakes only on a
`notify_all`, and (last conjunct) `notify_all` occurs only in operations that
leave the cell terminal. -/
theorem C6_result_blocking {V : Type} (f fw g : Future V) (t : Option Nat)
    (e : V) (op : Op V) :
    (f.state = .finished → f.exception = none →
        Future.resultOp f t fw = .ok f.result)
    ∧ (f.state = .finished → f.exception = some e →
        Future.resultOp f t fw = .error (.raised e))
    ∧ (f.state = .canceled →
        Future.resultOp f t fw = .error .cancelledError)
    ∧ ((f.state = .pending ∨ f.state = .running) →
        (fw.state = .finished → fw.exception = none →
            Future.resultOp f t fw = .ok fw.result)
        ∧ (fw.state = .finished → fw.exception = some e →
            Future.resultOp f t fw = .error (.raised e))
        ∧ (fw.state = .canceled →
            Future.resultOp f t fw = .error .cancelledError)
        ∧ ((fw.state = .pending ∨ fw.state = .running) →
            Future.resultOp f t fw = .error .timeoutError))
    ∧ (Future.resultOp f t fw = .error .timeoutError →
        (f.state = .pending ∨ f.state = .running)
          ∧ (fw.state = .pending ∨ fw.state = .running))
    ∧ (Event.notifyAll ∈ opTrace g op →
        (applyOp g op).state = .canceled ∨ (applyOp g op).state = .finished) := by
  refine ⟨?_, ?_, ?_, ?_, ?_, notifyAll_terminal g op⟩
  · intro h1 h2
    simp [Future.resultOp, Future.get_result, h1, h2]
  · intro h1 h2
    simp [Future.resultOp, Future.get_result, h1, h2]
  · intro h1
    simp [Future.resultOp, h1]
  · intro h1
    have hnf : f.state ≠ .finished := by
      rcases h1 with h1 | h1 <;> simp [h1]
    have hnc : f.state ≠ .canceled := by
      rcases h1 with h1 | h1 <;> simp [h1]
    refine ⟨?_, ?_, ?_, ?_⟩
    · intro h2 h3
      simp [Future.resultOp, hnf, hnc, h2, Future.get_result, h3]
    · intro h2 h3
      simp [Future.resultOp, hnf, hnc, h2, Future.get_result, h3]
    · intro h2
      simp [Future.resultOp, hnf, hnc, h2]
    · intro h2
      have h2f : fw.state ≠ .finished := by
        rcases h2 with h | h <;> simp [h]
      have h2c : fw.state ≠ .canceled := by
        rcases h2 with h | h <;> simp [h]
      simp [Future.resultOp, hnf, hnc, h2f, h2c]
  · intro h
    rcases f with ⟨s, r, e1, cbs, ws⟩
    rcases fw with ⟨s2, r2, e2, cbs2, ws2⟩
    rcases s <;> rcases s2 <;> rcases e1 <;> rcases e2 <;>
      simp [Future.resultOp, Future.get_result] at h ⊢

/-- Witness for C6: a wait on a fresh pending cell that wakes to see the
finished example cell returns its stored result. -/
theorem C6_witness :
    Future.resultOp (Future.init (V := Nat)) none exampleFinished
      = .ok exampleFinished.result :=
  ((C6_result_blocking (Future.init (V := Nat)) exampleFinished
      (Future.init (V := Nat)) none 0 Op.cancel).2.2.2.1
    (Or.inl rfl)).1 rfl rfl

/-- Claim C7: `shutdown` sets the shutdown flag, after which `submit` and
`submit_task` raise `RuntimeError("Cannot schedule new futures after
shutdown.")` and schedule nothing; `shutdown(wait=True)` runs
`future.exception()` on every outstanding cell, tolerating — never
propagating — `TimeoutError` and `CancelledError` (the loop always completes
with `.ok`); and each wait observes its cell until a terminal observation:
a `TimeoutError` outcome of `exception()` is possible only when neither the
initial nor the wake-up observation is terminal, which cannot happen for the
no-timeout wait `shutdown` uses. -/
theorem C7_shutdown_contract {V : Type} (ex : ThreadExecutor V)
    (wakes : List (Future V)) (item : WorkItem V) (t : Task V) (cur : Nat)
    (f w : Future V) :
    ThreadExecutor.shutdown ex true wakes
        = .ok { ex with shutdownFlag := true }
    ∧ (∀ ex2 : ThreadExecutor V, ex2.shutdownFlag = true →
        ThreadExecutor.submit ex2 item cur
            = (.error (.runtimeError
                "Cannot schedule new futures after shutdown."), [])
          ∧ ThreadExecutor.submit_task ex2 t cur
            = (.error (.runtimeError
                "Cannot schedule new futures after shutdown."), []))
    ∧ (Future.exceptionOp f none w = .error .timeoutError →
        (f.state = .pending ∨ f.state = .running)
          ∧ (w.state = .pending ∨ w.state = .running))
    ∧ ThreadExecutor.shutdownWaitStep (f, w) = .ok () := by
  refine ⟨?_, ?_, ?_, shutdownWaitStep_ok (f, w)⟩
  · simp [ThreadExecutor.shutdown, shutdownWaitLoop_ok]
  · intro ex2 h
    constructor <;> simp [ThreadExecutor.submit, ThreadExecutor.submit_task, h]
  · intro h
    rcases f with ⟨s, r, e1, cbs, ws⟩
    rcases w with ⟨s2, r2, e2, cbs2, ws2⟩
    rcases s <;> rcases s2 <;>
      simp [Future.exceptionOp] at h ⊢

/-- Witness for C7: shutting down a fresh executor succeeds, and a subsequent
`submit` of a plain callable raises the shutdown error. -/
theorem C7_witness :
    ThreadExecutor.shutdown (ThreadExecutor.init (V := Nat)) true []
        = .ok { ThreadExecutor.init (V := Nat) with shutdownFlag := true }
    ∧ ThreadExecutor.submit
        { ThreadExecutor.init (V := Nat) with shutdownFlag := true }
        (.callable 1) 0
        = (.error (.runtimeError
            "Cannot schedule new futures after shutdown."), []) :=
  ⟨(C7_shutdown_contract (ThreadExecutor.init (V := Nat)) [] (.callable 1)
      exampleTask 0 Future.init Future.init).1,
   ((C7_shutdown_contract
        { ThreadExecutor.init (V := Nat) with shutdownFlag := true } []
        (.callable 1) exampleTask 0 Future.init Future.init).2.1
      { ThreadExecutor.init (V := Nat) with shutdownFlag := true } rfl).1⟩

/-- Claim C8: submitting a `Task` (via `submit` or `submit_task`) whose owning
thread is not the calling thread, or which has a parent, raises an error to
the caller and hands nothing to the thread pool; when the executor is not
shut down the error is the corresponding `ValueError` from
`__make_task_runnable`. -/
theorem C8_task_preconditions {V : Type} (ex : ThreadExecutor V) (t : Task V)
    (cur : Nat) (h : t.ownThread ≠ cur ∨ t.parent ≠ none) :
    (∃ err, (ThreadExecutor.submit ex (.task t) cur).1 = .error err)
    ∧ (ThreadExecutor.submit ex (.task t) cur).2 = []
    ∧ (∃ err, (ThreadExecutor.submit_task ex t cur).1 = .error err)
    ∧ (ThreadExecutor.submit_task ex t cur).2 = []
    ∧ (ex.shutdownFlag = false → t.ownThread ≠ cur →
        (ThreadExecutor.submit_task ex t cur).1
          = .error (.valueError "Can only submit Tasks from it's own thread."))
    ∧ (ex.shutdownFlag = false → t.ownThread = cur → t.parent ≠ none →
        (ThreadExecutor.submit_task ex t cur).1
          = .error (.valueError "Can not submit Tasks with a parent.")) := by
  obtain ⟨err, herr⟩ := make_task_runnable_err t cur h
  by_cases hs : ex.shutdownFlag
  · refine ⟨⟨.runtimeError "Cannot schedule new futures after shutdown.", ?_⟩,
      ?_, ⟨.runtimeError "Cannot schedule new futures after shutdown.", ?_⟩,
      ?_, ?_, ?_⟩ <;>
      simp [ThreadExecutor.submit, ThreadExecutor.submit_task, hs]
  · refine ⟨⟨err, ?_⟩, ?_, ⟨err, ?_⟩, ?_, ?_, ?_⟩
    · simp [ThreadExecutor.submit, hs, herr]
    · simp [ThreadExecutor.submit, hs, herr]
    · simp [ThreadExecutor.submit_task, hs, herr]
    · simp [ThreadExecutor.submit_task, hs, herr]
    · intro h1 h2
      simp [ThreadExecutor.submit_task, hs,
        ThreadExecutor.make_task_runnable, h2]
    · intro h1 h2 h3
      simp [ThreadExecutor.submit_task, hs,
        ThreadExecutor.make_task_runnable, h2, h3]

/-- Witness for C8: submitting the example task (owned by thread 1) from
thread 2 raises the ownership `ValueError` and starts nothing. -/
theorem C8_witness :
    (ThreadExecutor.submit_task (ThreadExecutor.init (V := Nat))
        exampleTask 2).2 = []
    ∧ (ThreadExecutor.submit_task (ThreadExecutor.init (V := Nat))
        exampleTask 2).1
      = .error (.valueError "Can only submit Tasks from it's own thread.") :=
  ⟨(C8_task_preconditions (ThreadExecutor.init (V := Nat)) exampleTask 2
      (Or.inl (by decide))).2.2.2.1,
   (C8_task_preconditions (ThreadExecutor.init (V := Nat)) exampleTask 2
      (Or.inl (by decide))).2.2.2.2.1 rfl (by decide)⟩

/-- Claim C9: `map(func, *iterables)` first submits one work item per zipped
argument tuple — every submission event precedes every yield event — and then
yields `result()` of each submission in input order: the yielded sequence is
exactly `func`'s outcome on each tuple, in the order of the zipped inputs.
Each submission's cell is completed independently with its own outcome, so
the yielded sequence does not depend on the workers' completion order. -/
theorem C9_map_order {A V : Type} (func : A → Except V V) (xs : List A) :
    (ThreadExecutor.mapOp func xs).2
        = xs.map (fun x =>
            match func x with
            | .ok v => .ok (some v)
            | .error e => .error (.raised e))
    ∧ (ThreadExecutor.mapOp func xs).1
        = (List.range xs.length).map .submitEv
            ++ (List.range xs.length).map .yieldEv
    ∧ submitsBeforeYields (ThreadExecutor.mapOp func xs).1 false = true := by
  refine ⟨?_, rfl, ?_⟩
  · simp only [ThreadExecutor.mapOp, List.map_map]
    exact List.map_congr_left (fun x _ => runnable_result (func x))
  · exact submitsBeforeYields_ranges (List.range xs.length)
      (List.range xs.length)

/-- Claim C10: calling a `methodinvoke` wrapper with any number of positional
arguments raises no error: the posted invocation pairs declared types with
arguments by position via `zip`, so it carries `min` of the two lengths many
pairs, surplus arguments are dropped, and surplus declared types are
dropped. -/
theorem C10_methodinvoke_arity {T A : Type} (m : methodinvoke T)
    (args : List A) :
    methodinvoke.call m args
        = { obj := m.obj, method := m.method, args := m.arg_types.zip args }
    ∧ (methodinvoke.call m args).args.length
        = min m.arg_types.length args.length
    ∧ (methodinvoke.call m args).args.map Prod.fst
        = m.arg_types.take args.length
    ∧ (methodinvoke.call m args).args.map Prod.snd
        = args.take m.arg_types.length :=
  ⟨rfl, by simp [methodinvoke.call],
   zip_map_fst m.arg_types args, zip_map_snd m.arg_types args⟩

end OWConcurrent
